import Mathlib

/-!
# Verification of the ozone-profile pipeline of `strem_2.py`

Shallow embedding of the data pipeline of `strem_2.py`
(`load_data` and `prep_profile`): CSV cells, rows and dataframes,
sentinel handling at load time, schema validation, numeric coercion,
non-positive ozone masking, `dropna`, altitude binning with
numpy/pandas `.round()` (round half to even), group-by aggregation
(mean, median, size, sample standard deviation), the standard error
of the mean with its `count < 5` override, and the centered rolling
mean with `min_periods=3`.

Real measurement values are modelled as exact rationals `ℚ`; a CSV
cell is a number, a non-numeric string, or missing (`na`, pandas NaN).
-/

namespace Strem

/-- A CSV/dataframe cell: a numeric value, a non-numeric string, or
missing (pandas `NaN`). -/
inductive Cell : Type where
  | num (q : ℚ)
  | str (s : String)
  | na
deriving DecidableEq, Repr

/-- `ALT_COL = "Altitude_m_MSL"` from `strem_2.py`. -/
def ALT_COL : String := "Altitude_m_MSL"

/-- `O3_COL = "Ozone_ppbv"` from `strem_2.py`. -/
def O3_COL : String := "Ozone_ppbv"

/-- `FILL_VALUES = [-9999, -9999.0, -8888, -8888.0, -7777, -7777.0]`;
the integer and real forms coincide in `ℚ`. -/
def FILL_VALUES : List ℚ := [-9999, -9999, -8888, -8888, -7777, -7777]

/-- Effect of `pd.read_csv(..., na_values=FILL_VALUES)` on one cell:
a sentinel numeric value is read as missing. -/
def fillCell : Cell → Cell
  | .num q => if q ∈ FILL_VALUES then .na else .num q
  | .str s => .str s
  | .na => .na

/-- `pd.to_numeric(_, errors="coerce")` on one cell, as a partial value:
numbers survive, everything else fails to coerce. -/
def coerceCell : Cell → Option ℚ
  | .num q => some q
  | _ => none

/-- `pd.to_numeric(_, errors="coerce")` as a cell transformation
(failed coercion becomes `NaN`). -/
def toNumericCell (c : Cell) : Cell :=
  match coerceCell c with
  | some q => .num q
  | none => .na

/-- Effect of `x.loc[x[O3_COL] <= 0, O3_COL] = np.nan` on one ozone
cell: a non-positive number becomes `NaN`; `NaN <= 0` is false in
pandas, so missing cells are untouched. -/
def maskNonposCell : Cell → Cell
  | .num q => if q ≤ 0 then .na else .num q
  | .str s => .str s
  | .na => .na

/-- Whether a cell holds a numeric value (i.e. is not `NaN` for
`dropna` purposes after coercion). -/
def isNum : Cell → Bool
  | .num _ => true
  | _ => false

/-- A dataframe row: an association list from column names to cells. -/
structure Row : Type where
  cells : List (String × Cell)
deriving DecidableEq, Repr

/-- Value of a row at a column (missing column reads as `NaN`). -/
def Row.get (r : Row) (c : String) : Cell :=
  match r.cells.find? (fun p => p.1 == c) with
  | some p => p.2
  | none => .na

/-- Pointwise update of one column of a row (used for the column
assignments `x[col] = f(x[col])` of `prep_profile`). -/
def Row.update (r : Row) (c : String) (f : Cell → Cell) : Row :=
  ⟨r.cells.map (fun p => if p.1 == c then (p.1, f p.2) else p)⟩

/-- Whether the row has an entry for column `c`. -/
def Row.hasCol (r : Row) (c : String) : Bool :=
  r.cells.any (fun p => p.1 == c)

/-- `df[c] = v` on one row: overwrite the column if present, append it
otherwise. -/
def Row.setCol (r : Row) (c : String) (v : Cell) : Row :=
  if r.hasCol c then ⟨r.cells.map (fun p => if p.1 == c then (p.1, v) else p)⟩
  else ⟨r.cells ++ [(c, v)]⟩

/-- A dataframe: a list of column names and a list of rows. -/
structure DataFrame : Type where
  columns : List String
  rows : List Row
deriving DecidableEq, Repr

/-- Sentinel replacement (`na_values`) applied to every cell of a row. -/
def loadRow (r : Row) : Row :=
  ⟨r.cells.map (fun p => (p.1, fillCell p.2))⟩

/-- `load_data`: `pd.read_csv(csv_path, na_values=FILL_VALUES)`,
modelled on the already-tokenised table: every cell that parses to a
sentinel value is loaded as missing. -/
def load_data (df : DataFrame) : DataFrame :=
  ⟨df.columns, df.rows.map loadRow⟩

/-- `x[c] = pd.to_numeric(x[c], errors="coerce")` on a dataframe. -/
def toNumericCol (c : String) (df : DataFrame) : DataFrame :=
  ⟨df.columns, df.rows.map (fun r => r.update c toNumericCell)⟩

/-- `x.loc[x[c] <= 0, c] = np.nan` on a dataframe. -/
def maskNonposCol (c : String) (df : DataFrame) : DataFrame :=
  ⟨df.columns, df.rows.map (fun r => r.update c maskNonposCell)⟩

/-- Row filter of `x.dropna(subset=[ALT_COL, O3_COL])`: keep rows whose
altitude and ozone cells are both numeric. -/
def rowKept (r : Row) : Bool :=
  isNum (r.get ALT_COL) && isNum (r.get O3_COL)

/-- `x.dropna(subset=[ALT_COL, O3_COL])`. -/
def dropna (df : DataFrame) : DataFrame :=
  ⟨df.columns, df.rows.filter rowKept⟩

/-- Lines 42-45 of `strem_2.py`: coerce both columns to numeric, mask
non-positive ozone, drop rows with missing altitude or ozone. -/
def cleanFrame (df : DataFrame) : DataFrame :=
  dropna (maskNonposCol O3_COL (toNumericCol O3_COL (toNumericCol ALT_COL df)))

/-- The per-row composition of the cleaning column assignments
(coerce altitude, coerce ozone, mask non-positive ozone). -/
def procRow (r : Row) : Row :=
  ((r.update ALT_COL toNumericCell).update O3_COL toNumericCell).update O3_COL maskNonposCell

/-- A cleaned record: the altitude and ozone values of a surviving row. -/
structure CleanRec : Type where
  alt : ℚ
  o3 : ℚ
deriving DecidableEq, Repr

/-- Read the altitude/ozone pair out of a cleaned row. -/
def extractRec (r : Row) : Option CleanRec :=
  match r.get ALT_COL, r.get O3_COL with
  | .num a, .num o => some ⟨a, o⟩
  | _, _ => none

/-- The cleaned dataset of `prep_profile` (`d`), as records. -/
def cleanedRecs (df : DataFrame) : List CleanRec :=
  (cleanFrame df).rows.filterMap extractRec

/-- numpy/pandas `Series.round()` to an integer: round to nearest,
ties to even (IEEE 754 / numpy `rint` semantics).  With `n = ⌊q⌋`, the
fractional part `q - n` is below, above, or equal to `1/2` according
as `2*q` is below, above, or equal to `2*n + 1`. -/
def roundHalfEven (q : ℚ) : ℤ :=
  let n := ⌊q⌋
  if 2 * q < 2 * n + 1 then n
  else if 2 * (n : ℚ) + 1 < 2 * q then n + 1
  else if n % 2 = 0 then n else n + 1

/-- Line 51 of `strem_2.py`:
`d["alt_bin"] = (d[ALT_COL] / bin_m).round() * bin_m`. -/
def assignBin (binM : ℚ) (alt : ℚ) : ℚ :=
  (roundHalfEven (alt / binM) : ℚ) * binM

/-- Modelled from the spec's words only: "nearest-bin rounding, ties
round half-up per standard rounding", i.e. `⌊q + 1/2⌋`.  Used to
compare the spec's claimed rounding rule with the code's `.round()`. -/
def specRoundHalfUp (q : ℚ) : ℤ := ⌊q + 1/2⌋

/-- Insert into a weakly sorted list (for the median). -/
def insertSorted (q : ℚ) : List ℚ → List ℚ
  | [] => [q]
  | a :: l => if q ≤ a then q :: a :: l else a :: insertSorted q l

/-- Sort a list of rationals ascending (duplicates kept). -/
def sortQ (l : List ℚ) : List ℚ := l.foldr insertSorted []

/-- Insert into a strictly sorted list, skipping duplicates (the
sorted distinct group keys of pandas `groupby`). -/
def insertSortedDedup (q : ℚ) : List ℚ → List ℚ
  | [] => [q]
  | a :: l =>
    if q < a then q :: a :: l
    else if q = a then a :: l
    else a :: insertSortedDedup q l

/-- The sorted distinct values of a list (pandas `groupby` keys,
ascending). -/
def sortedBins (l : List ℚ) : List ℚ := l.foldr insertSortedDedup []

/-- Arithmetic mean of a list of rationals (pandas `mean`). -/
def meanQ (l : List ℚ) : ℚ := l.sum / (l.length : ℚ)

/-- pandas `median`: middle element of the sorted values, or the
average of the two middle elements. -/
def medianQ (l : List ℚ) : ℚ :=
  let s := sortQ l
  if l.length % 2 = 1 then s.getD (l.length / 2) 0
  else (s.getD (l.length / 2 - 1) 0 + s.getD (l.length / 2) 0) / 2

/-- pandas `std` (sample variance part, `ddof=1`): undefined on fewer
than two observations.  `varQ` is the square of the standard
deviation, kept exact in `ℚ`. -/
def varQ (l : List ℚ) : Option ℚ :=
  if l.length < 2 then none
  else some ((l.map (fun x => (x - meanQ l) ^ 2)).sum / ((l.length : ℚ) - 1))

/-- One row of the aggregate `profile` dataframe:
`d.groupby("alt_bin")[O3_COL].agg(mean, median, n=size, std)`.
The standard deviation is carried as its square `var` (exact in `ℚ`);
`std` itself is `Real.sqrt` of it, see `AggRow.std`. -/
structure AggRow : Type where
  alt_bin : ℚ
  mean : ℚ
  median : ℚ
  n : ℕ
  var : Option ℚ
deriving DecidableEq, Repr

/-- Aggregate statistics of one group. -/
def mkAgg (b : ℚ) (vals : List ℚ) : AggRow :=
  ⟨b, meanQ vals, medianQ vals, vals.length, varQ vals⟩

/-- The ozone values of the group with key `b`. -/
def groupVals (binM : ℚ) (recs : List CleanRec) (b : ℚ) : List ℚ :=
  (recs.filter (fun rec => decide (assignBin binM rec.alt = b))).map (fun rec => rec.o3)

/-- The distinct `alt_bin` keys, ascending (pandas `groupby` sorts its
keys; the following `sort_values("alt_bin")` is then a no-op). -/
def binKeys (binM : ℚ) (recs : List CleanRec) : List ℚ :=
  sortedBins (recs.map (fun rec => assignBin binM rec.alt))

/-- Lines 53-58 of `strem_2.py`: the aggregate profile rows, one per
distinct `alt_bin`, sorted ascending. -/
def profileRows (binM : ℚ) (recs : List CleanRec) : List AggRow :=
  (binKeys binM recs).map (fun b => mkAgg b (groupVals binM recs b))

/-- Left end of the centred rolling window of width `w` at position
`i`, clipped at the start of the sequence.  With `offset = (w-1)/2`,
the centred window of pandas' `FixedWindowIndexer` at `i` is
`[i - (w-1-offset), i + offset]`; for the odd widths of the slider it
is the symmetric `[i - (w-1)/2, i + (w-1)/2]`. -/
def winLo (w i : ℕ) : ℕ := i - (w - 1 - (w - 1) / 2)

/-- Number of positions of the centred window of width `w` at `i`
from `winLo` up to the unclipped right end `i + (w-1)/2`; `take`
clips it at the end of the sequence. -/
def winLen (w i : ℕ) : ℕ := i + (w - 1) / 2 + 1 - winLo w i

/-- The slice of a column covered by the clipped centred window at `i`. -/
def windowVals (means : List ℚ) (w i : ℕ) : List ℚ :=
  (means.drop (winLo w i)).take (winLen w i)

/-- pandas `Series.rolling(window=w, center=True, min_periods=minp).mean()`
on a column of optional values: position `i` averages the defined
values in the centred window clipped to the sequence, and is defined
exactly when at least `minp` defined values fall in that window. -/
def rollingMean (col : List (Option ℚ)) (w minp : ℕ) : List (Option ℚ) :=
  (List.range col.length).map (fun i =>
    let vals := ((col.drop (winLo w i)).take (winLen w i)).filterMap id
    if minp ≤ vals.length then some (meanQ vals) else none)

/-- The error taxonomy of `prep_profile`: the two `ValueError`s of the
source, which the spec names `SchemaError` and `EmptyDatasetError`. -/
inductive PrepError : Type where
  | schemaError (missing : List String) (found : List String)
  | emptyDataError
deriving DecidableEq, Repr

/-- Line 36 of `strem_2.py`:
`missing = [c for c in [ALT_COL, O3_COL] if c not in df.columns]`. -/
def missingCols (df : DataFrame) : List String :=
  [ALT_COL, O3_COL].filter (fun c => ! df.columns.contains c)

/-- `prep_profile(df, bin_m, window)`: schema validation, cleaning,
empty check, binning/aggregation, and the smoothing column
(`mean_smooth = profile["mean"].rolling(window, center=True,
min_periods=3).mean()`).  Returns the cleaned records, the aggregate
rows and the `mean_smooth` column; the `sem` column is the derived
`AggRow.sem`. -/
def prep_profile (df : DataFrame) (binM : ℚ) (window : ℕ) :
    Except PrepError (List CleanRec × List AggRow × List (Option ℚ)) :=
  if missingCols df ≠ [] then
    .error (.schemaError (missingCols df) df.columns)
  else
    if (cleanFrame df).rows.isEmpty then .error .emptyDataError
    else
      let d := cleanedRecs df
      let prof := profileRows binM d
      .ok (d, prof, rollingMean (prof.map (fun r => some r.mean)) window 3)

/-- The `std` column: sample standard deviation, i.e. the square root
of the sample variance (missing for singleton groups). -/
noncomputable def AggRow.std (r : AggRow) : Option ℝ :=
  r.var.map (fun v => Real.sqrt (v : ℝ))

/-- Line 60 of `strem_2.py`:
`profile["sem"] = profile["std"] / np.sqrt(profile["n"])`. -/
noncomputable def AggRow.semRaw (r : AggRow) : Option ℝ :=
  r.std.map (fun s => s / Real.sqrt (r.n : ℝ))

/-- Lines 60-61 of `strem_2.py`: the `sem` column after the override
`profile.loc[profile["n"] < 5, "sem"] = np.nan`. -/
noncomputable def AggRow.sem (r : AggRow) : Option ℝ :=
  if r.n < 5 then none else r.semRaw

/-- The dataframe objects alive during `prep_profile`: the caller's
`df` and the locals `x` and `d`. -/
structure PrepEnv : Type where
  df : DataFrame
  x : DataFrame
  d : DataFrame
deriving DecidableEq, Repr

/-- `.copy()`: a fresh object with the same contents. -/
def copyDF (df : DataFrame) : DataFrame := df

/-- The `alt_bin` cell computed from an altitude cell (division and
`round` propagate `NaN`). -/
def binCell (binM : ℚ) : Cell → Cell
  | .num a => .num (assignBin binM a)
  | _ => .na

/-- Line 51 of `strem_2.py` at dataframe level:
`d["alt_bin"] = (d[ALT_COL] / bin_m).round() * bin_m`. -/
def addBinCol (binM : ℚ) (df : DataFrame) : DataFrame :=
  ⟨df.columns ++ ["alt_bin"],
   df.rows.map (fun r => r.setCol "alt_bin" (binCell binM (r.get ALT_COL)))⟩

/-- Statement-by-statement embedding of the body of `prep_profile`
(lines 36-51), tracking which dataframe object each statement writes:
every write targets the locals `x` or `d`, never the caller's `df`. -/
def prepBody (binM : ℚ) (e : PrepEnv) : Except PrepError PrepEnv :=
  if missingCols e.df ≠ [] then
    .error (.schemaError (missingCols e.df) e.df.columns)
  else
    let e1 : PrepEnv := { e with x := copyDF e.df }
    let e2 : PrepEnv := { e1 with x := toNumericCol ALT_COL e1.x }
    let e3 : PrepEnv := { e2 with x := toNumericCol O3_COL e2.x }
    let e4 : PrepEnv := { e3 with x := maskNonposCol O3_COL e3.x }
    let e5 : PrepEnv := { e4 with d := copyDF (dropna e4.x) }
    if e5.d.rows.isEmpty then .error .emptyDataError
    else .ok { e5 with d := addBinCol binM e5.d }

/-! ### Concrete dataframes used by the witnesses -/

/-- One row: altitude 25 m, ozone 30 ppbv. -/
def dfOne : DataFrame :=
  ⟨[ALT_COL, O3_COL], [⟨[(ALT_COL, .num 25), (O3_COL, .num 30)]⟩]⟩

/-- Five rows in one 100 m bin, ozone 30 each. -/
def dfFive : DataFrame :=
  ⟨[ALT_COL, O3_COL],
   [⟨[(ALT_COL, .num 100), (O3_COL, .num 30)]⟩,
    ⟨[(ALT_COL, .num 101), (O3_COL, .num 30)]⟩,
    ⟨[(ALT_COL, .num 102), (O3_COL, .num 30)]⟩,
    ⟨[(ALT_COL, .num 103), (O3_COL, .num 30)]⟩,
    ⟨[(ALT_COL, .num 104), (O3_COL, .num 30)]⟩]⟩

/-- Four rows in four distinct 100 m bins. -/
def dfFour : DataFrame :=
  ⟨[ALT_COL, O3_COL],
   [⟨[(ALT_COL, .num 100), (O3_COL, .num 10)]⟩,
    ⟨[(ALT_COL, .num 200), (O3_COL, .num 20)]⟩,
    ⟨[(ALT_COL, .num 300), (O3_COL, .num 30)]⟩,
    ⟨[(ALT_COL, .num 400), (O3_COL, .num 40)]⟩]⟩

/-- A dataframe missing the ozone column. -/
def dfNoO3 : DataFrame := ⟨[ALT_COL], []⟩

/-- Valid schema, but the only ozone value is non-positive. -/
def dfNonpos : DataFrame :=
  ⟨[ALT_COL, O3_COL], [⟨[(ALT_COL, .num 100), (O3_COL, .num (-5))]⟩]⟩

/-- A raw file row carrying the sentinel altitude `-9999`. -/
def dfSentinel : DataFrame :=
  ⟨[ALT_COL, O3_COL], [⟨[(ALT_COL, .num (-9999)), (O3_COL, .num 30)]⟩]⟩

/-- The empty dataframe (initial value of the locals of `prepBody`). -/
def dfEmpty : DataFrame := ⟨[], []⟩

/-! ### Cell, row and frame lemmas -/

theorem find?_key_map (cells : List (String × Cell)) (c : String)
    (g : String × Cell → String × Cell) (hg : ∀ p, (g p).1 = p.1) :
    (cells.map g).find? (fun p => p.1 == c) =
      (cells.find? (fun p => p.1 == c)).map g := by
  induction cells with
  | nil => rfl
  | cons p rest ih =>
    by_cases hp : p.1 = c
    · rw [List.map_cons, List.find?_cons_of_pos _ (by simp [hg, hp]),
        List.find?_cons_of_pos _ (by simp [hp])]
      rfl
    · rw [List.map_cons, List.find?_cons_of_neg _ (by simp [hg, hp]),
        List.find?_cons_of_neg _ (by simp [hp]), ih]

theorem Row.get_update_of_ne (r : Row) (c c' : String) (f : Cell → Cell) (h : c' ≠ c) :
    (r.update c f).get c' = r.get c' := by
  have hg : ∀ p : String × Cell, ((if p.1 == c then (p.1, f p.2) else p)).1 = p.1 := by
    intro p; split <;> rfl
  unfold Row.update Row.get
  dsimp only
  rw [find?_key_map r.cells c' (fun p => if p.1 == c then (p.1, f p.2) else p) hg]
  rcases hfind : r.cells.find? (fun p => p.1 == c') with _ | p
  · rw [hfind]; rfl
  · rw [hfind]
    have hp := List.find?_some hfind
    have hp1 : p.1 = c' := by simpa using hp
    simp [hp1, h]

theorem Row.get_update_self (r : Row) (c : String) (f : Cell → Cell) (hf : f .na = .na) :
    (r.update c f).get c = f (r.get c) := by
  have hg : ∀ p : String × Cell, ((if p.1 == c then (p.1, f p.2) else p)).1 = p.1 := by
    intro p; split <;> rfl
  unfold Row.update Row.get
  dsimp only
  rw [find?_key_map r.cells c (fun p => if p.1 == c then (p.1, f p.2) else p) hg]
  rcases hfind : r.cells.find? (fun p => p.1 == c) with _ | p
  · rw [hfind]; exact hf.symm
  · rw [hfind]
    have hp := List.find?_some hfind
    have hp1 : p.1 = c := by simpa using hp
    simp [hp1]

theorem get_loadRow (r : Row) (c : String) : (loadRow r).get c = fillCell (r.get c) := by
  unfold loadRow Row.get
  dsimp only
  rw [find?_key_map r.cells c (fun p => (p.1, fillCell p.2)) (fun p => rfl)]
  rcases hfind : r.cells.find? (fun p => p.1 == c) with _ | p
  · rw [hfind]; rfl
  · rw [hfind]; rfl

theorem alt_ne_o3 : ALT_COL ≠ O3_COL := by decide

theorem procRow_get_alt (r : Row) :
    (procRow r).get ALT_COL = toNumericCell (r.get ALT_COL) := by
  unfold procRow
  rw [Row.get_update_of_ne _ _ _ _ alt_ne_o3, Row.get_update_of_ne _ _ _ _ alt_ne_o3,
    Row.get_update_self _ _ _ rfl]

theorem procRow_get_o3 (r : Row) :
    (procRow r).get O3_COL = maskNonposCell (toNumericCell (r.get O3_COL)) := by
  unfold procRow
  rw [Row.get_update_self _ _ _ rfl, Row.get_update_self _ _ _ rfl,
    Row.get_update_of_ne _ _ _ _ (Ne.symm alt_ne_o3)]

theorem rows_cleanFrame (df : DataFrame) :
    (cleanFrame df).rows = (df.rows.map procRow).filter rowKept := by
  simp only [cleanFrame, dropna, maskNonposCol, toNumericCol, List.map_map]
  rfl

theorem extractRec_of_kept (r : Row) (h : rowKept r = true) :
    ∃ rec : CleanRec, extractRec r = some rec ∧
      r.get ALT_COL = .num rec.alt ∧ r.get O3_COL = .num rec.o3 := by
  unfold rowKept at h
  unfold extractRec
  rcases ha : r.get ALT_COL with a | s | _ <;> rcases ho : r.get O3_COL with o | t | _ <;>
    simp [ha, ho, isNum] at h ⊢

/-! ### The sorted distinct group keys -/

theorem mem_insertSortedDedup (q a : ℚ) (l : List ℚ) :
    a ∈ insertSortedDedup q l ↔ a = q ∨ a ∈ l := by
  induction l with
  | nil => simp [insertSortedDedup]
  | cons b t ih =>
    unfold insertSortedDedup
    split_ifs with h1 h2
    · simp [List.mem_cons]
    · subst h2
      simp only [List.mem_cons]
      tauto
    · simp only [List.mem_cons, ih]
      tauto

theorem mem_sortedBins (a : ℚ) (l : List ℚ) : a ∈ sortedBins l ↔ a ∈ l := by
  induction l with
  | nil => simp [sortedBins]
  | cons b t ih =>
    show a ∈ insertSortedDedup b (sortedBins t) ↔ _
    rw [mem_insertSortedDedup]
    simp [ih, List.mem_cons]

theorem pairwise_insertSortedDedup (q : ℚ) (l : List ℚ) (h : l.Pairwise (· < ·)) :
    (insertSortedDedup q l).Pairwise (· < ·) := by
  induction l with
  | nil => simp [insertSortedDedup]
  | cons b t ih =>
    rcases List.pairwise_cons.mp h with ⟨hb, ht⟩
    unfold insertSortedDedup
    split_ifs with h1 h2
    · refine List.pairwise_cons.mpr ⟨?_, h⟩
      intro a ha
      rcases List.mem_cons.mp ha with rfl | ha
      · exact h1
      · exact lt_trans h1 (hb _ ha)
    · exact h
    · have hbq : b < q := lt_of_le_of_ne (le_of_not_lt h1) (fun e => h2 e.symm)
      refine List.pairwise_cons.mpr ⟨?_, ih ht⟩
      intro a ha
      rcases (mem_insertSortedDedup q a t).mp ha with rfl | ha
      · exact hbq
      · exact hb _ ha

theorem pairwise_sortedBins (l : List ℚ) : (sortedBins l).Pairwise (· < ·) := by
  induction l with
  | nil => simp [sortedBins]
  | cons b t ih => exact pairwise_insertSortedDedup b _ ih

theorem nodup_sortedBins (l : List ℚ) : (sortedBins l).Nodup :=
  (pairwise_sortedBins l).imp ne_of_lt

/-! ### Counting records across bins -/

theorem sum_map_ite_one {α : Type} [DecidableEq α] (k : α) (bs : List α) (hnd : bs.Nodup)
    (hk : k ∈ bs) : (bs.map (fun b => if k = b then (1 : ℕ) else 0)).sum = 1 := by
  induction bs with
  | nil => cases hk
  | cons b t ih =>
    rcases List.nodup_cons.mp hnd with ⟨hb, ht⟩
    rcases List.mem_cons.mp hk with rfl | hk'
    · have hz : (t.map (fun b' => if k = b' then (1 : ℕ) else 0)).sum = 0 := by
        refine List.sum_eq_zero ?_
        intro x hx
        rcases List.mem_map.mp hx with ⟨b', hb', rfl⟩
        exact if_neg (by rintro rfl; exact hb hb')
      simp [hz]
    · have hzb : (if k = b then (1 : ℕ) else 0) = 0 :=
        if_neg (by rintro rfl; exact hb hk')
      simp [hzb, ih ht hk']

theorem sum_map_add_nat {α : Type} (bs : List α) (f g : α → ℕ) :
    (bs.map (fun b => f b + g b)).sum = (bs.map f).sum + (bs.map g).sum := by
  induction bs with
  | nil => rfl
  | cons b t ih =>
    simp only [List.map_cons, List.sum_cons, ih]
    omega

theorem sum_countP_partition {β α : Type} [DecidableEq α] (d : List β) (bs : List α)
    (f : β → α) (hnd : bs.Nodup) (hcov : ∀ r ∈ d, f r ∈ bs) :
    (bs.map (fun b => d.countP (fun r => decide (f r = b)))).sum = d.length := by
  induction d with
  | nil =>
    refine List.sum_eq_zero ?_
    intro x hx
    rcases List.mem_map.mp hx with ⟨b, _, rfl⟩
    simp
  | cons r t ih =>
    have hcov' : ∀ x ∈ t, f x ∈ bs := fun x hx => hcov x (List.mem_cons_of_mem _ hx)
    have hfr : f r ∈ bs := hcov r (List.mem_cons_self _ _)
    have hstep : (fun b => (r :: t).countP (fun x => decide (f x = b))) =
        fun b => t.countP (fun x => decide (f x = b)) + (if f r = b then 1 else 0) := by
      funext b
      rw [List.countP_cons]
      simp
    rw [hstep, sum_map_add_nat, ih hcov', sum_map_ite_one (f r) bs hnd hfr]
    simp

/-! ### Shape of a successful `prep_profile` -/

theorem prep_profile_ok {df : DataFrame} {binM : ℚ} {w : ℕ}
    {d : List CleanRec} {prof : List AggRow} {sm : List (Option ℚ)}
    (h : prep_profile df binM w = .ok (d, prof, sm)) :
    missingCols df = [] ∧ (cleanFrame df).rows ≠ [] ∧ d = cleanedRecs df ∧
      prof = profileRows binM (cleanedRecs df) ∧
      sm = rollingMean ((profileRows binM (cleanedRecs df)).map (fun r => some r.mean)) w 3 := by
  unfold prep_profile at h
  split at h
  · cases h
  · rename_i h1
    split at h
    · cases h
    · rename_i h2
      simp only [Except.ok.injEq, Prod.mk.injEq] at h
      refine ⟨not_ne_iff.mp h1, fun he => h2 (List.isEmpty_iff.mpr he),
        h.1.symm, h.2.1.symm, h.2.2.symm⟩

/-! ### Rolling-mean access -/

theorem length_rollingMean (col : List (Option ℚ)) (w minp : ℕ) :
    (rollingMean col w minp).length = col.length := by
  simp [rollingMean]

theorem filterMap_id_map_some (l : List ℚ) : (l.map some).filterMap id = l := by
  induction l with
  | nil => rfl
  | cons a t ih => simp [ih]

theorem rollingMean_getElem? (col : List (Option ℚ)) (w minp i : ℕ) (h : i < col.length) :
    (rollingMean col w minp)[i]? =
      some (if minp ≤ (((col.drop (winLo w i)).take (winLen w i)).filterMap id).length
            then some (meanQ (((col.drop (winLo w i)).take (winLen w i)).filterMap id))
            else none) := by
  unfold rollingMean
  rw [List.getElem?_map, List.getElem?_range h]
  rfl

/-! ### The rounding rule of `.round()` -/

theorem roundHalfEven_le_half (q : ℚ) : |q - roundHalfEven q| ≤ 1 / 2 := by
  have hn : ((⌊q⌋ : ℤ) : ℚ) ≤ q := Int.floor_le q
  have hn1 : q < (⌊q⌋ : ℚ) + 1 := Int.lt_floor_add_one q
  simp only [roundHalfEven]
  split_ifs with h1 h2 h3 <;> rw [abs_le] <;> constructor <;> push_cast <;> linarith

theorem roundHalfEven_nearest (q : ℚ) (j : ℤ) :
    |q - roundHalfEven q| ≤ |q - j| := by
  have hn : ((⌊q⌋ : ℤ) : ℚ) ≤ q := Int.floor_le q
  have hn1 : q < (⌊q⌋ : ℚ) + 1 := Int.lt_floor_add_one q
  have hA : q - j ≤ |q - j| := le_abs_self _
  have hB : (j : ℚ) - q ≤ |q - j| := (le_abs_self ((j : ℚ) - q)).trans_eq (abs_sub_comm _ _)
  have hj : j ≤ ⌊q⌋ ∨ ⌊q⌋ + 1 ≤ j := by omega
  rcases hj with hj | hj
  · have hjq : (j : ℚ) ≤ (⌊q⌋ : ℚ) := by exact_mod_cast hj
    simp only [roundHalfEven]
    split_ifs with h1 h2 h3 <;>
      [rw [abs_of_nonneg (by linarith)];
       rw [abs_of_nonpos (by push_cast; linarith)];
       rw [abs_of_nonneg (by linarith)];
       rw [abs_of_nonpos (by push_cast; linarith)]] <;>
      push_cast <;> linarith
  · have hjq : (⌊q⌋ : ℚ) + 1 ≤ (j : ℚ) := by exact_mod_cast hj
    simp only [roundHalfEven]
    split_ifs with h1 h2 h3 <;>
      [rw [abs_of_nonneg (by linarith)];
       rw [abs_of_nonpos (by push_cast; linarith)];
       rw [abs_of_nonneg (by linarith)];
       rw [abs_of_nonpos (by push_cast; linarith)]] <;>
      push_cast <;> linarith

theorem roundHalfEven_tie_even (q : ℚ) (h : |q - roundHalfEven q| = 1 / 2) :
    roundHalfEven q % 2 = 0 := by
  have hn : ((⌊q⌋ : ℤ) : ℚ) ≤ q := Int.floor_le q
  have hn1 : q < (⌊q⌋ : ℚ) + 1 := Int.lt_floor_add_one q
  simp only [roundHalfEven] at h ⊢
  split_ifs at h ⊢ with h1 h2 h3
  · rw [abs_of_nonneg (by linarith)] at h
    linarith
  · rw [abs_of_nonpos (by push_cast; linarith)] at h
    push_cast at h
    linarith
  · exact h3
  · omega

/-! ### Small cell-level helpers -/

theorem isNum_iff (c : Cell) : isNum c = true ↔ ∃ q : ℚ, c = .num q := by
  cases c <;> simp [isNum]

theorem maskNonposCell_pos {c : Cell} {v : ℚ} (h : maskNonposCell c = .num v) : 0 < v := by
  cases c with
  | num q =>
    simp only [maskNonposCell] at h
    split_ifs at h with hq <;> cases h
    exact lt_of_not_le hq
  | str s => cases h
  | na => cases h

theorem toNumericCell_of_none {c : Cell} (h : coerceCell c = none) : toNumericCell c = .na := by
  unfold toNumericCell
  rw [h]

theorem toNumericCell_of_some {c : Cell} {v : ℚ} (h : coerceCell c = some v) :
    toNumericCell c = .num v := by
  unfold toNumericCell
  rw [h]

theorem extractRec_o3 {r : Row} {rec : CleanRec} (h : extractRec r = some rec) :
    r.get O3_COL = .num rec.o3 := by
  unfold extractRec at h
  rcases ha : r.get ALT_COL with a | s | _ <;> rcases ho : r.get O3_COL with o | t | _ <;>
    rw [ha, ho] at h <;> cases h <;> rfl

/-! ### The claims -/

/-- C1: for every input dataset and parameter pair, every record of the
cleaned dataset returned by `prep_profile` has a numeric (hence, in this
exact model, finite) altitude and a strictly positive ozone value; and
every input row whose ozone coerces to a value `≤ 0`, or whose altitude
or ozone fails numeric coercion, is rejected by the `dropna` filter and
is therefore absent from the cleaned dataset (whose rows are exactly the
processed input rows that pass that filter). -/
theorem C1_cleaned_invariant (df : DataFrame) (binM : ℚ) (w : ℕ)
    (d : List CleanRec) (prof : List AggRow) (sm : List (Option ℚ))
    (h : prep_profile df binM w = .ok (d, prof, sm)) :
    (∀ rec ∈ d, 0 < rec.o3) ∧
    (∀ r ∈ (cleanFrame df).rows,
      (∃ a : ℚ, r.get ALT_COL = .num a) ∧ ∃ v : ℚ, r.get O3_COL = .num v ∧ 0 < v) ∧
    (cleanFrame df).rows = (df.rows.map procRow).filter rowKept ∧
    (∀ r : Row,
      (coerceCell (r.get O3_COL) = none ∨
        (∃ v : ℚ, coerceCell (r.get O3_COL) = some v ∧ v ≤ 0) ∨
        coerceCell (r.get ALT_COL) = none) →
      rowKept (procRow r) = false) := by
  have hframe : ∀ r ∈ (cleanFrame df).rows,
      (∃ a : ℚ, r.get ALT_COL = .num a) ∧ ∃ v : ℚ, r.get O3_COL = .num v ∧ 0 < v := by
    intro r hr
    rw [rows_cleanFrame] at hr
    rcases List.mem_filter.mp hr with ⟨hmem, hkept⟩
    rcases List.mem_map.mp hmem with ⟨r0, _, rfl⟩
    unfold rowKept at hkept
    rw [Bool.and_eq_true] at hkept
    rcases hkept with ⟨hka, hko⟩
    constructor
    · exact (isNum_iff _).mp hka
    · rcases (isNum_iff _).mp hko with ⟨v, hv⟩
      refine ⟨v, hv, ?_⟩
      rw [procRow_get_o3] at hv
      exact maskNonposCell_pos hv
  refine ⟨?_, hframe, rows_cleanFrame df, ?_⟩
  · intro rec hrec
    obtain ⟨-, -, hd, -, -⟩ := prep_profile_ok h
    subst hd
    rcases List.mem_filterMap.mp hrec with ⟨r, hr, hex⟩
    rcases hframe r hr with ⟨-, v, hv, hvpos⟩
    have ho3 := extractRec_o3 hex
    rw [ho3] at hv
    injection hv with hv'
    exact hv' ▸ hvpos
  · intro r hbad
    unfold rowKept
    rw [procRow_get_alt, procRow_get_o3]
    rcases hbad with hno | ⟨v, hv, hvle⟩ | hna
    · rw [toNumericCell_of_none hno]
      simp [maskNonposCell, isNum]
    · rw [toNumericCell_of_some hv]
      simp [maskNonposCell, hvle, isNum]
    · rw [toNumericCell_of_none hna]
      simp [isNum]

/-- C2: a raw file row whose altitude or ozone cell carries one of the
sentinel values of `FILL_VALUES` is read as missing by `load_data`
(`na_values`), is rejected by the `dropna` filter of the cleaning, and
is therefore absent from the cleaned dataset, even though the sentinel
would otherwise have survived numeric coercion. -/
theorem C2_sentinel_excluded (df : DataFrame) (r : Row) (hr : r ∈ df.rows)
    (hs : (∃ q ∈ FILL_VALUES, r.get ALT_COL = .num q) ∨
      ∃ q ∈ FILL_VALUES, r.get O3_COL = .num q) :
    rowKept (procRow (loadRow r)) = false ∧
    (cleanFrame (load_data df)).rows =
      ((df.rows.map loadRow).map procRow).filter rowKept := by
  constructor
  · unfold rowKept
    rw [procRow_get_alt, procRow_get_o3, get_loadRow, get_loadRow]
    rcases hs with ⟨q, hq, hcell⟩ | ⟨q, hq, hcell⟩
    · rw [hcell]
      simp [fillCell, hq, toNumericCell, coerceCell, isNum]
    · rw [hcell]
      simp [fillCell, hq, toNumericCell, coerceCell, maskNonposCell, isNum]
  · rw [rows_cleanFrame]
    simp [load_data]

/-- Concrete evaluation of the pipeline on `dfOne` (bin width 10,
window 11): one cleaned record at altitude 25, whose `alt_bin` is 20 —
`25/10 = 2.5` rounds to 2 under `.round()`'s ties-to-even rule. -/
theorem prep_dfOne : prep_profile dfOne 10 11 =
    .ok ([⟨25, 30⟩], [⟨20, 30, 30, 1, none⟩], [none]) := by
  norm_num +decide [prep_profile, dfOne, missingCols, ALT_COL, O3_COL, cleanFrame, dropna,
    maskNonposCol, toNumericCol, cleanedRecs, extractRec, Row.get, Row.update, rowKept, isNum,
    toNumericCell, coerceCell, maskNonposCell, profileRows, binKeys, sortedBins,
    insertSortedDedup, groupVals, assignBin, roundHalfEven, mkAgg, meanQ, medianQ, sortQ,
    insertSorted, varQ, rollingMean, winLo, winLen, List.range, List.range.loop,
    List.filter_cons, List.filterMap_cons, List.find?_cons_of_pos, List.find?_cons_of_neg]

/-- C3 counterexample: the cleaned record with altitude 25 under bin
width 10 (within the allowed range) is assigned `alt_bin = 20` by the
code, while the claimed rule — `round(altitude/bin_width) × bin_width`
with ties rounding half-up — yields 30.  `.round()` rounds ties to
even, not half-up. -/
theorem C3_counterexample :
    prep_profile dfOne 10 11 = .ok ([⟨25, 30⟩], [⟨20, 30, 30, 1, none⟩], [none]) ∧
    assignBin 10 25 = 20 ∧
    (specRoundHalfUp (25 / 10) : ℚ) * 10 = 30 ∧
    (20 : ℚ) ≠ 30 := by
  refine ⟨prep_dfOne, ?_, ?_, by norm_num⟩
  · norm_num [assignBin, roundHalfEven]
  · norm_num [specRoundHalfUp]

/-- C3 (amended): for every altitude and positive bin width, the
assigned `alt_bin` is `k × bin_width` where `k` is a nearest integer to
`altitude / bin_width` (within 1/2, and at least as close as every
other integer), and at ties (distance exactly 1/2) `k` is the even
candidate — i.e. nearest-bin rounding with ties to even (banker's
rounding), not ties half-up. -/
theorem C3_amended_round_half_even (alt binW : ℚ) (h : 0 < binW) :
    ∃ k : ℤ, assignBin binW alt = (k : ℚ) * binW ∧
      |alt / binW - k| ≤ 1 / 2 ∧
      (∀ j : ℤ, |alt / binW - k| ≤ |alt / binW - j|) ∧
      (|alt / binW - k| = 1 / 2 → k % 2 = 0) :=
  ⟨roundHalfEven (alt / binW), rfl, roundHalfEven_le_half _,
    roundHalfEven_nearest _, roundHalfEven_tie_even _⟩

/-- Witness for the amended C3 at altitude 25, bin width 10. -/
theorem C3_amended_witness :
    ∃ k : ℤ, assignBin 10 25 = (k : ℚ) * 10 ∧
      |(25 : ℚ) / 10 - k| ≤ 1 / 2 ∧
      (∀ j : ℤ, |(25 : ℚ) / 10 - k| ≤ |(25 : ℚ) / 10 - j|) ∧
      (|(25 : ℚ) / 10 - k| = 1 / 2 → k % 2 = 0) :=
  C3_amended_round_half_even 25 10 (by norm_num)

/-- C4: in every successful run, each profile row's count `n` is the
number of cleaned records whose assigned bin equals that row's
`alt_bin`; the counts over all profile rows sum to the number of
cleaned records; the profile rows are strictly ascending in `alt_bin`;
and every count is at least 1. -/
theorem C4_profile_counts (df : DataFrame) (binM : ℚ) (w : ℕ)
    (d : List CleanRec) (prof : List AggRow) (sm : List (Option ℚ))
    (h : prep_profile df binM w = .ok (d, prof, sm)) :
    (∀ row ∈ prof,
      row.n = d.countP (fun rec => decide (assignBin binM rec.alt = row.alt_bin))) ∧
    (prof.map (fun row => row.n)).sum = d.length ∧
    (prof.map (fun row => row.alt_bin)).Pairwise (· < ·) ∧
    (∀ row ∈ prof, 1 ≤ row.n) := by
  obtain ⟨-, -, hd, hprof, -⟩ := prep_profile_ok h
  subst hd hprof
  refine ⟨?_, ?_, ?_, ?_⟩
  · intro row hrow
    rcases List.mem_map.mp hrow with ⟨b, hb, rfl⟩
    show (groupVals binM (cleanedRecs df) b).length =
      (cleanedRecs df).countP (fun rec => decide (assignBin binM rec.alt = b))
    unfold groupVals
    rw [List.length_map, ← List.countP_eq_length_filter]
  · unfold profileRows
    rw [List.map_map]
    have hfun : ((fun row : AggRow => row.n) ∘
        fun b => mkAgg b (groupVals binM (cleanedRecs df) b)) =
        fun b => (cleanedRecs df).countP
          (fun rec => decide (assignBin binM rec.alt = b)) := by
      funext b
      show (groupVals binM (cleanedRecs df) b).length = _
      unfold groupVals
      rw [List.length_map, ← List.countP_eq_length_filter]
    rw [hfun]
    refine sum_countP_partition _ _ _ ?_ ?_
    · exact nodup_sortedBins _
    · intro rec hrec
      show assignBin binM rec.alt ∈ binKeys binM (cleanedRecs df)
      unfold binKeys
      rw [mem_sortedBins]
      exact List.mem_map_of_mem _ hrec
  · unfold profileRows
    rw [List.map_map]
    have hfun : ((fun row : AggRow => row.alt_bin) ∘
        fun b => mkAgg b (groupVals binM (cleanedRecs df) b)) = id := funext fun b => rfl
    rw [hfun, List.map_id]
    exact pairwise_sortedBins _
  · intro row hrow
    rcases List.mem_map.mp hrow with ⟨b, hb, rfl⟩
    have hbmem : b ∈ (cleanedRecs df).map (fun rec => assignBin binM rec.alt) :=
      (mem_sortedBins _ _).mp hb
    rcases List.mem_map.mp hbmem with ⟨rec, hrec, hfb⟩
    show 1 ≤ (groupVals binM (cleanedRecs df) b).length
    unfold groupVals
    rw [List.length_map]
    have : rec ∈ (cleanedRecs df).filter
        (fun rec => decide (assignBin binM rec.alt = b)) :=
      List.mem_filter.mpr ⟨hrec, by simp [hfb]⟩
    exact List.length_pos.mpr (List.ne_nil_of_mem this)

/-- C5: in every profile row, `sem` is undefined whenever `n < 5`
(the override applies regardless of the formula's output), and equals
`std / sqrt(n)` whenever `n ≥ 5` and `std` is defined. -/
theorem C5_sem_override (df : DataFrame) (binM : ℚ) (w : ℕ)
    (d : List CleanRec) (prof : List AggRow) (sm : List (Option ℚ))
    (h : prep_profile df binM w = .ok (d, prof, sm)) :
    ∀ row ∈ prof,
      (row.n < 5 → row.sem = none) ∧
      (5 ≤ row.n → ∀ s : ℝ, row.std = some s →
        row.sem = some (s / Real.sqrt (row.n : ℝ))) := by
  intro row _
  constructor
  · intro h5
    unfold AggRow.sem
    rw [if_pos h5]
  · intro h5 s hs
    unfold AggRow.sem
    rw [if_neg (not_lt.mpr h5)]
    unfold AggRow.semRaw
    rw [hs]
    rfl

/-- C6: every altitude bin holding exactly one cleaned record has an
undefined (missing) sample standard deviation, not zero: its variance
cell is `none` and so is its `std`. -/
theorem C6_singleton_std_undefined (df : DataFrame) (binM : ℚ) (w : ℕ)
    (d : List CleanRec) (prof : List AggRow) (sm : List (Option ℚ))
    (h : prep_profile df binM w = .ok (d, prof, sm)) :
    ∀ row ∈ prof, row.n = 1 → row.var = none ∧ row.std = none := by
  obtain ⟨-, -, -, hprof, -⟩ := prep_profile_ok h
  subst hprof
  intro row hrow h1
  rcases List.mem_map.mp hrow with ⟨b, hb, rfl⟩
  have h1' : (groupVals binM (cleanedRecs df) b).length = 1 := h1
  have hvar : (mkAgg b (groupVals binM (cleanedRecs df) b)).var = none := by
    show varQ _ = none
    unfold varQ
    rw [if_pos (by omega)]
  refine ⟨hvar, ?_⟩
  unfold AggRow.std
  rw [hvar]
  rfl

/-- C7: in every successful run whose profile has at least 3 rows, the
`mean_smooth` column has one entry per profile row, and the entry at
every position `i` — the first and last included — is the average of
the `mean` values in the centred window clipped to the available bins
whenever that clipped window holds at least 3 defined values, and is
undefined whenever it holds fewer than 3 (all `mean` values of the
profile are defined, so the defined values in the window are exactly
its entries). -/
theorem C7_mean_smooth_edges (df : DataFrame) (binM : ℚ) (w : ℕ)
    (d : List CleanRec) (prof : List AggRow) (sm : List (Option ℚ))
    (h : prep_profile df binM w = .ok (d, prof, sm)) (h3 : 3 ≤ prof.length) :
    sm.length = prof.length ∧
    ∀ i, i < prof.length →
      (3 ≤ (windowVals (prof.map (fun r => r.mean)) w i).length →
        sm[i]? = some (some (meanQ (windowVals (prof.map (fun r => r.mean)) w i)))) ∧
      ((windowVals (prof.map (fun r => r.mean)) w i).length < 3 →
        sm[i]? = some none) := by
  obtain ⟨-, -, -, hprof, hsm⟩ := prep_profile_ok h
  rw [← hprof] at hsm
  subst hsm
  constructor
  · rw [length_rollingMean, List.length_map]
  · intro i hi
    have hi' : i < (prof.map (fun r => some r.mean)).length := by
      rw [List.length_map]; exact hi
    rw [rollingMean_getElem? _ _ _ _ hi']
    have hcol : prof.map (fun r => some r.mean) =
        (prof.map (fun r => r.mean)).map some := by
      rw [List.map_map]
      rfl
    have hval : (((prof.map (fun r => some r.mean)).drop (winLo w i)).take
          (winLen w i)).filterMap id = windowVals (prof.map (fun r => r.mean)) w i := by
      rw [hcol, ← List.map_drop, ← List.map_take, filterMap_id_map_some]
      rfl
    rw [hval]
    constructor
    · intro hlen
      rw [if_pos hlen]
    · intro hlen
      rw [if_neg (not_le.mpr hlen)]

/-- C8: `prep_profile` fails with the schema error exactly when a
required column is missing; the error carries exactly the missing
columns and the full list of columns found, and it depends only on the
column list — the data rows are never touched, so the check precedes
all numeric coercion.  When both required columns are present no
schema error is possible. -/
theorem C8_schema_validation (df : DataFrame) (binM : ℚ) (w : ℕ) :
    (missingCols df ≠ [] →
      (prep_profile df binM w = .error (.schemaError (missingCols df) df.columns) ∧
        ∀ rows : List Row, prep_profile ⟨df.columns, rows⟩ binM w =
          .error (.schemaError (missingCols df) df.columns))) ∧
    (missingCols df = [] →
      ∀ m f, prep_profile df binM w ≠ .error (.schemaError m f)) := by
  have hcols : ∀ rows : List Row, missingCols ⟨df.columns, rows⟩ = missingCols df :=
    fun rows => rfl
  constructor
  · intro hm
    constructor
    · unfold prep_profile
      rw [if_pos hm]
    · intro rows
      unfold prep_profile
      rw [hcols rows, if_pos hm]
  · intro hm m f
    unfold prep_profile
    rw [if_neg (by simp [hm])]
    split
    · simp
    · simp

/-- C9: with a valid schema, `prep_profile` fails with the
empty-dataset error exactly when no row survives cleaning, and every
successful result carries a non-empty cleaned dataset and a non-empty
profile — there is no successful empty-profile outcome. -/
theorem C9_empty_dataset (df : DataFrame) (binM : ℚ) (w : ℕ)
    (hm : missingCols df = []) :
    (prep_profile df binM w = .error .emptyDataError ↔ (cleanFrame df).rows = []) ∧
    ∀ d prof sm, prep_profile df binM w = .ok (d, prof, sm) → d ≠ [] ∧ prof ≠ [] := by
  constructor
  · unfold prep_profile
    rw [if_neg (by simp [hm])]
    split
    · rename_i hemp
      simp [List.isEmpty_iff.mp hemp]
    · rename_i hemp
      constructor
      · intro hc
        cases hc
      · intro hrows
        exact absurd (List.isEmpty_iff.mpr hrows) hemp
  · intro d prof sm h
    obtain ⟨-, hne, hd, hprof, -⟩ := prep_profile_ok h
    subst hd hprof
    obtain ⟨r, hr⟩ := List.exists_mem_of_ne_nil _ hne
    have hkept : rowKept r = true := by
      rw [rows_cleanFrame] at hr
      exact (List.mem_filter.mp hr).2
    obtain ⟨rec, hrec, -, -⟩ := extractRec_of_kept r hkept
    have hmem : rec ∈ cleanedRecs df := List.mem_filterMap.mpr ⟨r, hr, hrec⟩
    constructor
    · exact List.ne_nil_of_mem hmem
    · have hb : assignBin binM rec.alt ∈ binKeys binM (cleanedRecs df) := by
        unfold binKeys
        rw [mem_sortedBins]
        exact List.mem_map_of_mem _ hmem
      exact List.ne_nil_of_mem (List.mem_map_of_mem _ hb)

/-- C10: `prep_profile` never mutates its input dataframe: in the
statement-level trace `prepBody`, the first statement copies the
caller's `df` into the local `x` and every subsequent write targets
the locals `x` or `d`, so the caller's dataframe after a successful
call is exactly the dataframe passed in (the cached raw load is never
mutated by recomputation). -/
theorem C10_input_unchanged (df x0 d0 : DataFrame) (binM : ℚ) (e : PrepEnv)
    (h : prepBody binM ⟨df, x0, d0⟩ = .ok e) : e.df = df := by
  unfold prepBody at h
  split at h
  · cases h
  · simp only [copyDF] at h
    split at h
    · cases h
    · simp only [Except.ok.injEq] at h
      rw [← h]

/-! ### Further concrete evaluations used by the witnesses -/

/-- Five records in the single bin 100 under bin width 100: count 5,
mean and median 30, variance 0; one profile row, so the window of the
width-3 rolling mean holds fewer than 3 values and `mean_smooth` is
undefined. -/
theorem prep_dfFive : prep_profile dfFive 100 3 =
    .ok ([⟨100, 30⟩, ⟨101, 30⟩, ⟨102, 30⟩, ⟨103, 30⟩, ⟨104, 30⟩],
      [⟨100, 30, 30, 5, some 0⟩], [none]) := by
  norm_num +decide [prep_profile, dfFive, missingCols, ALT_COL, O3_COL, cleanFrame, dropna,
    maskNonposCol, toNumericCol, cleanedRecs, extractRec, Row.get, Row.update, rowKept, isNum,
    toNumericCell, coerceCell, maskNonposCell, profileRows, binKeys, sortedBins,
    insertSortedDedup, groupVals, assignBin, roundHalfEven, mkAgg, meanQ, medianQ, sortQ,
    insertSorted, varQ, rollingMean, winLo, winLen, List.range, List.range.loop,
    List.filter_cons, List.filterMap_cons, List.find?_cons_of_pos, List.find?_cons_of_neg]

/-- Four singleton bins under bin width 100 and window 5: the first
`mean_smooth` entry averages the first three means (clipped window),
the interior ones average four, the last averages the last three. -/
theorem prep_dfFour : prep_profile dfFour 100 5 =
    .ok ([⟨100, 10⟩, ⟨200, 20⟩, ⟨300, 30⟩, ⟨400, 40⟩],
      [⟨100, 10, 10, 1, none⟩, ⟨200, 20, 20, 1, none⟩,
       ⟨300, 30, 30, 1, none⟩, ⟨400, 40, 40, 1, none⟩],
      [some 20, some 25, some 25, some 30]) := by
  norm_num +decide [prep_profile, dfFour, missingCols, ALT_COL, O3_COL, cleanFrame, dropna,
    maskNonposCol, toNumericCol, cleanedRecs, extractRec, Row.get, Row.update, rowKept, isNum,
    toNumericCell, coerceCell, maskNonposCell, profileRows, binKeys, sortedBins,
    insertSortedDedup, groupVals, assignBin, roundHalfEven, mkAgg, meanQ, medianQ, sortQ,
    insertSorted, varQ, rollingMean, winLo, winLen, List.range, List.range.loop,
    List.filter_cons, List.filterMap_cons, List.find?_cons_of_pos, List.find?_cons_of_neg]

/-- Cleaning `dfNonpos` (only row has ozone `-5 ≤ 0`) leaves no rows. -/
theorem clean_dfNonpos : (cleanFrame dfNonpos).rows = [] := by
  norm_num +decide [dfNonpos, cleanFrame, dropna, maskNonposCol, toNumericCol, Row.get,
    Row.update, rowKept, isNum, toNumericCell, coerceCell, maskNonposCell, ALT_COL, O3_COL,
    List.filter_cons, List.filterMap_cons, List.find?_cons_of_pos, List.find?_cons_of_neg]

/-- The statement trace on `dfOne`: the locals end up holding the
coerced frame and the binned frame, and the caller's frame is intact. -/
theorem prepBody_dfOne : prepBody 10 ⟨dfOne, dfEmpty, dfEmpty⟩ =
    .ok ⟨dfOne, dfOne,
      ⟨[ALT_COL, O3_COL, "alt_bin"],
       [⟨[(ALT_COL, .num 25), (O3_COL, .num 30), ("alt_bin", .num 20)]⟩]⟩⟩ := by
  norm_num +decide [prepBody, dfOne, dfEmpty, missingCols, ALT_COL, O3_COL, copyDF, dropna,
    maskNonposCol, toNumericCol, Row.get, Row.update, rowKept, isNum, toNumericCell,
    coerceCell, maskNonposCell, addBinCol, binCell, Row.setCol, Row.hasCol, assignBin,
    roundHalfEven, List.filter_cons, List.filterMap_cons, List.find?_cons_of_pos,
    List.find?_cons_of_neg, List.any_cons, List.any_nil]

/-! ### Witnesses -/

/-- Witness for C1 on `dfOne`: the surviving record's ozone is positive. -/
theorem C1_witness : (0 : ℚ) < 30 :=
  (C1_cleaned_invariant dfOne 10 11 [⟨25, 30⟩] [⟨20, 30, 30, 1, none⟩] [none] prep_dfOne).1
    ⟨25, 30⟩ (by simp)

/-- Witness for C2 on `dfSentinel`: the sentinel row is dropped. -/
theorem C2_witness :
    rowKept (procRow (loadRow ⟨[(ALT_COL, .num (-9999)), (O3_COL, .num 30)]⟩)) = false :=
  (C2_sentinel_excluded dfSentinel ⟨[(ALT_COL, .num (-9999)), (O3_COL, .num 30)]⟩
    (by simp [dfSentinel])
    (Or.inl ⟨-9999, by norm_num [FILL_VALUES], by rfl⟩)).1

/-- Witness for C4 on `dfFive`: the counts sum to the record count. -/
theorem C4_witness :
    (([⟨100, 30, 30, 5, some 0⟩] : List AggRow).map (fun row => row.n)).sum =
      ([⟨100, 30⟩, ⟨101, 30⟩, ⟨102, 30⟩, ⟨103, 30⟩, ⟨104, 30⟩] : List CleanRec).length :=
  (C4_profile_counts dfFive 100 3 _ _ _ prep_dfFive).2.1

/-- Witness for C5 on `dfFive`: count 5, so `sem = std / sqrt 5`. -/
theorem C5_witness :
    (⟨100, 30, 30, 5, some 0⟩ : AggRow).sem = some (Real.sqrt 0 / Real.sqrt 5) := by
  have h := (C5_sem_override dfFive 100 3 _ _ _ prep_dfFive ⟨100, 30, 30, 5, some 0⟩
    (by simp)).2 (by norm_num) (Real.sqrt ((0 : ℚ) : ℝ)) (by rfl)
  simpa using h

/-- Witness for C6 on `dfOne`: the singleton bin has no `std`. -/
theorem C6_witness :
    (⟨20, 30, 30, 1, none⟩ : AggRow).var = none ∧
      (⟨20, 30, 30, 1, none⟩ : AggRow).std = none :=
  C6_singleton_std_undefined dfOne 10 11 _ _ _ prep_dfOne ⟨20, 30, 30, 1, none⟩ (by simp) rfl

/-- Witness for C7 on `dfFour`: the first bin's `mean_smooth` is the
average of the clipped window `[10, 20, 30]`, namely 20. -/
theorem C7_witness :
    ([some 20, some 25, some 25, some 30] : List (Option ℚ))[0]? = some (some 20) := by
  have h := ((C7_mean_smooth_edges dfFour 100 5 _ _ _ prep_dfFour (by norm_num)).2 0
    (by norm_num)).1 (by norm_num [windowVals, winLo, winLen])
  have hv : meanQ (windowVals (([⟨100, 10, 10, 1, none⟩, ⟨200, 20, 20, 1, none⟩,
      ⟨300, 30, 30, 1, none⟩, ⟨400, 40, 40, 1, none⟩] : List AggRow).map
        (fun r => r.mean)) 5 0) = 20 := by
    norm_num [windowVals, winLo, winLen, meanQ]
  rw [hv] at h
  exact h

/-- Witness for C8 on `dfNoO3`: the schema error lists the missing
`Ozone_ppbv` and the column actually found. -/
theorem C8_witness :
    prep_profile dfNoO3 10 3 = .error (.schemaError [O3_COL] [ALT_COL]) :=
  ((C8_schema_validation dfNoO3 10 3).1 (by decide)).1

/-- Witness for C9 on `dfNonpos`: all rows cleaned away, so the run
fails with the empty-dataset error. -/
theorem C9_witness : prep_profile dfNonpos 10 3 = .error .emptyDataError :=
  (C9_empty_dataset dfNonpos 10 3 (by decide)).1.mpr clean_dfNonpos

/-- Witness for C10 on `dfOne`: the caller's frame after the trace is
the frame passed in. -/
theorem C10_witness :
    (⟨dfOne, dfOne, ⟨[ALT_COL, O3_COL, "alt_bin"],
      [⟨[(ALT_COL, .num 25), (O3_COL, .num 30), ("alt_bin", .num 20)]⟩]⟩⟩ : PrepEnv).df =
      dfOne :=
  C10_input_unchanged dfOne dfEmpty dfEmpty 10 _ prepBody_dfOne

end Strem
